import Mathlib

/-!
Verification development for the MechInterp101 repository: a shallow embedding of
the GPT-2-style decoder-only transformer implemented in
src/notebooks/01-Transformer101.ipynb, together with theorems settling the
frozen claims about it.

Tensors are embedded as functions over `Fin`-indexed axes with real entries,
so a tensor of shape [batch, position, d_model] becomes a term of type
`Fin batch → Fin pos → Fin d_model → ℝ` and shape claims are carried by types.
The shape-sensitive indexing/slicing behaviour of the embedding and positional
layers is additionally embedded at the list level, where the silent-truncation
and negative-index semantics of Python/torch indexing are visible.
-/

open Finset

/-! ## List-level embedding of torch indexing (EmbeddingLayer, PositionEmbedding) -/

/-- torch advanced-indexing semantics for a single integer index selecting a row
of a table with `rows.length` rows: valid indices are `-rows.length ≤ i < rows.length`;
a negative in-range index wraps to `i + rows.length`; anything else raises an
IndexError, modelled as `none`. -/
def torchIndex {α : Type} (rows : List α) (i : ℤ) : Option α :=
  if 0 ≤ i then rows[i.toNat]?
  else if -(rows.length : ℤ) ≤ i then rows[(i + rows.length).toNat]?
  else none

namespace EmbeddingLayer

/-- `EmbeddingLayer.forward` at the list level: `embedded = self.W_E[input_tokens, :]`.
Every token id indexes a row of `W_E` with torch's indexing semantics; a failing
index makes the whole lookup raise, modelled as `none`. -/
def forward (W_E : List (List ℝ)) (input_tokens : List (List ℤ)) :
    Option (List (List (List ℝ))) :=
  input_tokens.mapM (fun row => row.mapM (torchIndex W_E))

end EmbeddingLayer

namespace PositionEmbedding

/-- `PositionEmbedding.forward` at the list level:
`pos_embed = repeat(self.W_P[:input_tokens.shape[1], :], "pos d_model -> batch pos d_model", batch = input_tokens.shape[0])`.
The Python slice `W_P[:pos]` is `List.take pos` (silently clipped at the table
length), and the einops repeat replicates the slice across the batch axis. -/
def forward (W_P : List (List ℝ)) (input_tokens : List (List ℤ)) :
    List (List (List ℝ)) :=
  List.replicate input_tokens.length (W_P.take (input_tokens.headD []).length)

end PositionEmbedding

/-! ## Python-level embedding of the Config dataclass and Transformer.__init__ -/

/-- Python values appearing in the configuration. -/
inductive PyVal where
  | int : ℤ → PyVal
  | float : ℚ → PyVal
  | pylist : List PyVal → PyVal

/-- Python attribute lookup on a dataclass instance, as a finite field table. -/
def pyGetattr (fields : List (String × PyVal)) (name : String) : Option PyVal :=
  (fields.find? (fun fld => fld.1 = name)).map (fun fld => fld.2)

/-- Python iteration `for _ in v`: only a list is iterable; iterating an `int`
or `float` raises TypeError, modelled as `none`. -/
def pyIterate (v : PyVal) : Option (List PyVal) :=
  match v with
  | PyVal.pylist l => some l
  | _ => none

/-- The fields of the notebook's `Config` dataclass, exactly as declared in the
source: d_model=256, d_head=64, n_heads=5, d_mlp=1024, d_vocab=50257,
layer_norm_eps=1e-5, init_std=0.02, max_ctx=512 (MAX_CTX_LENGTH=512),
batch_size=4 (BATCH_SIZE=4). There is no `num_blocks` field. -/
def Config.fields : List (String × PyVal) :=
  [("d_model", PyVal.int 256), ("d_head", PyVal.int 64), ("n_heads", PyVal.int 5),
   ("d_mlp", PyVal.int 1024), ("d_vocab", PyVal.int 50257),
   ("layer_norm_eps", PyVal.float (1 / 100000)), ("init_std", PyVal.float (2 / 100)),
   ("max_ctx", PyVal.int 512), ("batch_size", PyVal.int 4)]

namespace Transformer

/-- The block-list construction in `Transformer.__init__`:
`nn.ModuleList([TransformerBlock(...) for _ in config.num_blocks])`.
The comprehension first looks up the attribute `config.num_blocks`
(AttributeError when absent, modelled as `none`) and then iterates the
looked-up value itself (TypeError when it is not iterable, modelled as
`none`); one block is built per iterated element, so we return the number of
blocks built. -/
def blockListCount (fields : List (String × PyVal)) : Option ℕ := do
  let nb ← pyGetattr fields "num_blocks"
  let elems ← pyIterate nb
  pure elems.length

end Transformer

/-! ## Function-level embedding of the numerical forward pass -/

noncomputable section

/-- `nn.Softmax(dim=-1)` along a `Fin n` axis. -/
def softmax {n : ℕ} (x : Fin n → ℝ) : Fin n → ℝ :=
  fun i => Real.exp (x i) / ∑ j, Real.exp (x j)

/-- `nn.LogSoftmax(dim=-1)` along a `Fin n` axis. -/
def logSoftmax {n : ℕ} (x : Fin n → ℝ) : Fin n → ℝ :=
  fun i => Real.log (softmax x i)

/-- Parameters of the notebook's `LayerNorm` module: learnable `gains` and
`bias` of length d_model and the numerical-stability constant
`layer_norm_eps` (source default 1e-5). -/
structure LNParams (d_model : ℕ) where
  gains : Fin d_model → ℝ
  bias : Fin d_model → ℝ
  layer_norm_eps : ℝ

namespace LayerNorm

/-- `torch.Tensor.var(dim=-1)` with the default `unbiased=True` (Bessel
correction): the mean of squared deviations from the mean with denominator
`n - 1`, not `n`. -/
def torchVar {d : ℕ} (y : Fin d → ℝ) : ℝ :=
  (∑ j, (y j - (∑ i, y i) / d) ^ 2) / ((d : ℝ) - 1)

/-- `LayerNorm.forward` on one feature vector (the source computes all
reductions with `dim=-1, keepdim=True`, i.e. independently for every leading
index, so the tensor version below maps this over batch and position):
subtract the mean, divide by `sqrt(var + eps)` where `var` is
`input_centered.var(dim=-1)`, then apply the gains and bias. -/
def forward {d : ℕ} (p : LNParams d) (input : Fin d → ℝ) : Fin d → ℝ :=
  let layer_mean := (∑ i, input i) / d
  let input_centered := fun j => input j - layer_mean
  let layer_var := torchVar input_centered
  let layer_scale := Real.sqrt (layer_var + p.layer_norm_eps)
  fun j => input_centered j / layer_scale * p.gains j + p.bias j

/-- `LayerNorm.forward` on a [batch, position, d_model] tensor. -/
def forwardT {batch pos d : ℕ} (p : LNParams d)
    (x : Fin batch → Fin pos → Fin d → ℝ) : Fin batch → Fin pos → Fin d → ℝ :=
  fun b q => forward p (x b q)

end LayerNorm

/-- Modelled from the spec (section 4.3), for comparison with the code:
LayerNorm with *biased* variance, denominator `d_model` rather than
`d_model - 1`, returning `gain * ((x - mean) / sqrt(variance + eps)) + bias`. -/
def LayerNormSpec.forward {d : ℕ} (p : LNParams d) (input : Fin d → ℝ) : Fin d → ℝ :=
  let μ := (∑ i, input i) / d
  let v := (∑ i, (input i - μ) ^ 2) / d
  fun j => p.gains j * ((input j - μ) / Real.sqrt (v + p.layer_norm_eps)) + p.bias j

/-- Parameters of the notebook's `SelfAttention` module: per-head query, key,
value and output projections with biases, and the additive mask constant
(source default `mask_val = -1e5`). -/
structure AttnParams (n_heads d_model d_head : ℕ) where
  W_Q : Fin n_heads → Fin d_model → Fin d_head → ℝ
  b_Q : Fin n_heads → Fin d_head → ℝ
  W_K : Fin n_heads → Fin d_model → Fin d_head → ℝ
  b_K : Fin n_heads → Fin d_head → ℝ
  W_V : Fin n_heads → Fin d_model → Fin d_head → ℝ
  b_V : Fin n_heads → Fin d_head → ℝ
  W_O : Fin n_heads → Fin d_head → Fin d_model → ℝ
  b_O : Fin d_model → ℝ
  maskVal : ℝ

namespace SelfAttention

variable {batch pos n_heads d_model d_head : ℕ}

/-- `queries = einsum(resid_pre, W_Q, "batch query_pos d_model, n_heads d_model d_head -> batch query_pos n_heads d_head") + b_Q`. -/
def queries (p : AttnParams n_heads d_model d_head)
    (x : Fin batch → Fin pos → Fin d_model → ℝ) :
    Fin batch → Fin pos → Fin n_heads → Fin d_head → ℝ :=
  fun b q h dh => (∑ m, x b q m * p.W_Q h m dh) + p.b_Q h dh

/-- `keys = einsum(resid_pre, W_K, ...) + b_K`. -/
def keys (p : AttnParams n_heads d_model d_head)
    (x : Fin batch → Fin pos → Fin d_model → ℝ) :
    Fin batch → Fin pos → Fin n_heads → Fin d_head → ℝ :=
  fun b k h dh => (∑ m, x b k m * p.W_K h m dh) + p.b_K h dh

/-- `values = einsum(resid_pre, W_V, ...) + b_V`. -/
def values (p : AttnParams n_heads d_model d_head)
    (x : Fin batch → Fin pos → Fin d_model → ℝ) :
    Fin batch → Fin pos → Fin n_heads → Fin d_head → ℝ :=
  fun b k h dh => (∑ m, x b k m * p.W_V h m dh) + p.b_V h dh

/-- The raw query-key dot products
`einsum(queries, keys, "batch query_pos n_heads d_head, batch key_pos n_heads d_head -> batch n_heads query_pos key_pos")`. -/
def rawScores (p : AttnParams n_heads d_model d_head)
    (x : Fin batch → Fin pos → Fin d_model → ℝ) :
    Fin batch → Fin n_heads → Fin pos → Fin pos → ℝ :=
  fun b h q k => ∑ dh, queries p x b q h dh * keys p x b k h dh

/-- `attn_pattern /= math.sqrt(self.W_Q.shape[-1])`: division by the square
root of d_head, the trailing dimension of `W_Q`. -/
def scaledScores (p : AttnParams n_heads d_model d_head)
    (x : Fin batch → Fin pos → Fin d_model → ℝ) :
    Fin batch → Fin n_heads → Fin pos → Fin pos → ℝ :=
  fun b h q k => rawScores p x b h q k / Real.sqrt (d_head : ℝ)

/-- `torch.triu(torch.ones(n, n), diagonal=1).bool()`: True exactly at the
entries `(q, k)` with `k ≥ q + 1`. -/
def triuMask {n : ℕ} (q k : Fin n) : Bool :=
  q.val + 1 ≤ k.val

/-- `attn_pattern.masked_fill_(mask, self.mask_val)`: scores at masked entries
are overwritten with the mask constant. -/
def maskedScores (p : AttnParams n_heads d_model d_head)
    (x : Fin batch → Fin pos → Fin d_model → ℝ) :
    Fin batch → Fin n_heads → Fin pos → Fin pos → ℝ :=
  fun b h q k => if triuMask q k then p.maskVal else scaledScores p x b h q k

/-- `attn_pattern = nn.Softmax(dim=-1)(attn_pattern)`: softmax over the
key-position axis. -/
def pattern (p : AttnParams n_heads d_model d_head)
    (x : Fin batch → Fin pos → Fin d_model → ℝ) :
    Fin batch → Fin n_heads → Fin pos → Fin pos → ℝ :=
  fun b h q => softmax (maskedScores p x b h q)

/-- `context_vec = einsum(attn_pattern, values, "batch n_heads query_pos key_pos, batch key_pos n_heads d_head -> batch n_heads query_pos d_head")`. -/
def context (p : AttnParams n_heads d_model d_head)
    (x : Fin batch → Fin pos → Fin d_model → ℝ) :
    Fin batch → Fin n_heads → Fin pos → Fin d_head → ℝ :=
  fun b h q dh => ∑ k, pattern p x b h q k * values p x b k h dh

/-- `SelfAttention.forward`: the per-head context vectors projected back to
d_model by `W_O` and summed over heads, plus the shared output bias. -/
def forward (p : AttnParams n_heads d_model d_head)
    (x : Fin batch → Fin pos → Fin d_model → ℝ) :
    Fin batch → Fin pos → Fin d_model → ℝ :=
  fun b q m => (∑ h, ∑ dh, context p x b h q dh * p.W_O h dh m) + p.b_O m

end SelfAttention

/-- The notebook's `gelu_new` activation, with the literal coefficient 0.04715
that appears in the source. -/
def gelu_new (input : ℝ) : ℝ :=
  0.5 * input * (1.0 + Real.tanh (Real.sqrt (2.0 / Real.pi) *
    (input + 0.04715 * input ^ 3)))

/-- Modelled from the spec (sections 4.5, 9): the canonical published GPT-2
"gelu_new" formula, whose cubic coefficient is 0.044715. -/
def gelu_new_canonical (input : ℝ) : ℝ :=
  0.5 * input * (1.0 + Real.tanh (Real.sqrt (2.0 / Real.pi) *
    (input + 0.044715 * input ^ 3)))

/-- Parameters of one `nn.Linear(dIn, dOut)`: weight of shape [dOut, dIn] and
bias of shape [dOut]; it computes `x ↦ x Wᵀ + b` on the last axis. -/
structure LinearParams (dIn dOut : ℕ) where
  weight : Fin dOut → Fin dIn → ℝ
  bias : Fin dOut → ℝ

/-- `nn.Linear` applied to one vector along the last axis. -/
def Linear.forward {dIn dOut : ℕ} (l : LinearParams dIn dOut)
    (x : Fin dIn → ℝ) : Fin dOut → ℝ :=
  fun o => (∑ i, x i * l.weight o i) + l.bias o

/-- Parameters of the notebook's `MLP` module: `input_layer : nn.Linear(d_model, d_mlp)`
and `output_layer : nn.Linear(d_mlp, d_model)`. -/
structure MLPParams (d_mlp d_model : ℕ) where
  input_layer : LinearParams d_model d_mlp
  output_layer : LinearParams d_mlp d_model

namespace MLP

/-- `MLP.forward` on one position's vector: input projection, `gelu_new`,
output projection. -/
def forward {d_mlp d_model : ℕ} (p : MLPParams d_mlp d_model)
    (resid_attended : Fin d_model → ℝ) : Fin d_model → ℝ :=
  let pre_act := Linear.forward p.input_layer resid_attended
  let act := fun j => gelu_new (pre_act j)
  Linear.forward p.output_layer act

/-- `MLP.forward` on a [batch, position, d_model] tensor (nn.Linear and the
activation act on the last axis, independently per position). -/
def forwardT {batch pos d_mlp d_model : ℕ} (p : MLPParams d_mlp d_model)
    (x : Fin batch → Fin pos → Fin d_model → ℝ) :
    Fin batch → Fin pos → Fin d_model → ℝ :=
  fun b q => forward p (x b q)

end MLP

/-- Parameters of one `TransformerBlock`: two layer norms, the attention
module and the MLP. -/
structure BlockParams (n_heads d_model d_head d_mlp : ℕ) where
  ln1 : LNParams d_model
  attn : AttnParams n_heads d_model d_head
  ln2 : LNParams d_model
  mlp : MLPParams d_mlp d_model

namespace TransformerBlock

/-- `TransformerBlock.forward`:
`ln1_out = ln1(resid_pre)`, `attn_out = attn(ln1_out)`,
`resid_mid = resid_pre + attn_out`, `ln2_out = ln2(resid_mid)`,
`resid_post = resid_mid + mlp(ln2_out)`. -/
def forward {batch pos n_heads d_model d_head d_mlp : ℕ}
    (p : BlockParams n_heads d_model d_head d_mlp)
    (resid_pre : Fin batch → Fin pos → Fin d_model → ℝ) :
    Fin batch → Fin pos → Fin d_model → ℝ :=
  let ln1_out := LayerNorm.forwardT p.ln1 resid_pre
  let attn_out := SelfAttention.forward p.attn ln1_out
  let resid_mid := resid_pre + attn_out
  let ln2_out := LayerNorm.forwardT p.ln2 resid_mid
  resid_mid + MLP.forwardT p.mlp ln2_out

end TransformerBlock

/-- `EmbeddingLayer.forward` at the function level: the tokens are in-range ids
(carried by the type `Fin d_vocab`) and each id selects its row of `W_E`. -/
def EmbeddingLayer.forwardF {batch pos d_vocab d_model : ℕ}
    (W_E : Fin d_vocab → Fin d_model → ℝ)
    (input_tokens : Fin batch → Fin pos → Fin d_vocab) :
    Fin batch → Fin pos → Fin d_model → ℝ :=
  fun b q => W_E (input_tokens b q)

/-- `PositionEmbedding.forward` at the function level, for `pos ≤ max_ctx`
(the case `pos > max_ctx` is settled on the list-level embedding): the first
`pos` rows of `W_P`, replicated across the batch axis. -/
def PositionEmbedding.forwardF {batch pos max_ctx d_model : ℕ} {τ : Type}
    (W_P : Fin max_ctx → Fin d_model → ℝ)
    (_input_tokens : Fin batch → Fin pos → τ)
    (h : pos ≤ max_ctx) : Fin batch → Fin pos → Fin d_model → ℝ :=
  fun _ q => W_P (Fin.castLE h q)

/-- Parameters of the `UnembeddingLayer`: `W_U : [d_model, d_vocab]` and
`b_U : [d_vocab]`. -/
structure UnembedParams (d_vocab d_model : ℕ) where
  W_U : Fin d_model → Fin d_vocab → ℝ
  b_U : Fin d_vocab → ℝ

/-- `UnembeddingLayer.forward`:
`logits = einsum(resid, W_U, "batch pos d_model, d_model d_vocab -> batch pos d_vocab") + b_U`. -/
def UnembeddingLayer.forward {batch pos d_vocab d_model : ℕ}
    (p : UnembedParams d_vocab d_model)
    (resid_embed_last : Fin batch → Fin pos → Fin d_model → ℝ) :
    Fin batch → Fin pos → Fin d_vocab → ℝ :=
  fun b q v => (∑ m, resid_embed_last b q m * p.W_U m v) + p.b_U v

end

/-! The remaining transformer-level definitions continue the noncomputable
function-level embedding. -/

noncomputable section

/-- All parameters owned by the `Transformer` module: embedding and positional
tables, the list of blocks (`nn.ModuleList`), the final layer norm and the
unembedding. -/
structure TransformerParams (n_heads d_model d_head d_mlp d_vocab max_ctx : ℕ) where
  W_E : Fin d_vocab → Fin d_model → ℝ
  W_P : Fin max_ctx → Fin d_model → ℝ
  blocks : List (BlockParams n_heads d_model d_head d_mlp)
  ln : LNParams d_model
  unembed : UnembedParams d_vocab d_model

namespace Transformer

variable {n_heads d_model d_head d_mlp d_vocab max_ctx : ℕ}

/-- `Transformer.forward`: embed, add positional embeddings, apply the blocks
in order, apply the final layer norm, unembed. -/
def forward (p : TransformerParams n_heads d_model d_head d_mlp d_vocab max_ctx)
    {batch pos : ℕ} (tokens : Fin batch → Fin pos → Fin d_vocab)
    (hpos : pos ≤ max_ctx) : Fin batch → Fin pos → Fin d_vocab → ℝ :=
  let embedded := EmbeddingLayer.forwardF p.W_E tokens
  let pos_embed := PositionEmbedding.forwardF p.W_P tokens hpos
  let resid := embedded + pos_embed
  let resid_after := p.blocks.foldl (fun r blk => TransformerBlock.forward blk r) resid
  let resid_normalized_final := LayerNorm.forwardT p.ln resid_after
  UnembeddingLayer.forward p.unembed resid_normalized_final

end Transformer

/-- Sequential application of a list of transformer blocks:
`applyBlocks [B1, ..., Bn] x = Bn (... (B1 x) ...)`, matching the loop
`for i in range(len(self.transformer)): resid = self.transformer[i](resid)`. -/
def applyBlocks {batch pos n_heads d_model d_head d_mlp : ℕ} :
    List (BlockParams n_heads d_model d_head d_mlp) →
    (Fin batch → Fin pos → Fin d_model → ℝ) →
    (Fin batch → Fin pos → Fin d_model → ℝ)
  | [], x => x
  | blk :: rest, x => applyBlocks rest (TransformerBlock.forward blk x)

/-- `cross_entropy_lm(logits, tokens)`:
log-softmax over the vocabulary axis, `torch.gather` of
`log_probs[:, :-1, :]` at `tokens[:, 1:]`, then `.mean(dim=-1)` over the
`pos - 1` gathered entries. -/
def cross_entropy_lm {batch pos d_vocab : ℕ}
    (logits : Fin batch → Fin pos → Fin d_vocab → ℝ)
    (tokens : Fin batch → Fin pos → Fin d_vocab) : Fin batch → ℝ :=
  let log_probs := fun b q => logSoftmax (logits b q)
  let pred_log_probs := fun b (j : Fin (pos - 1)) =>
    log_probs b (Fin.castLE (Nat.sub_le pos 1) j) (tokens b ⟨j.val + 1, by omega⟩)
  fun b => (∑ j, pred_log_probs b j) / ((pos - 1 : ℕ) : ℝ)

/-! ### Concrete parameter instances used for witnesses and counterexamples -/

/-- A layer norm over d_model = 2 with unit gains, zero bias and the source's
default epsilon 1e-5. -/
def lnId : LNParams 2 :=
  ⟨fun _ => 1, fun _ => 0, 1e-5⟩

/-- One-head attention parameters over d_model = 2, d_head = 1: zero queries
and keys, the value projection reads coordinate 0, the output projection
writes coordinate 0, and the source's default mask constant -1e5. -/
def attnC4 : AttnParams 1 2 1 where
  W_Q := fun _ _ _ => 0
  b_Q := fun _ _ => 0
  W_K := fun _ _ _ => 0
  b_K := fun _ _ => 0
  W_V := fun _ m _ => if m = 0 then 1 else 0
  b_V := fun _ _ => 0
  W_O := fun _ _ m => if m = 0 then 1 else 0
  b_O := fun _ => 0
  maskVal := -1e5

/-- An MLP whose weights and biases are all zero (its output is zero on every
input). -/
def mlpZero : MLPParams 1 2 :=
  ⟨⟨fun _ _ => 0, fun _ => 0⟩, ⟨fun _ _ => 0, fun _ => 0⟩⟩

/-- The single transformer block used by the causality counterexample. -/
def blockC4 : BlockParams 1 2 1 1 :=
  ⟨lnId, attnC4, lnId, mlpZero⟩

/-- A complete one-block transformer over d_model = 2, d_vocab = 2,
max_ctx = 2: token 1 embeds to (2, 0), token 0 to (0, 0), positional
embeddings are zero, and the unembedding reads coordinate 0 into logit 0. -/
def paramsC4 : TransformerParams 1 2 1 1 2 2 where
  W_E := fun t m => if t = 1 ∧ m = 0 then 2 else 0
  W_P := fun _ _ => 0
  blocks := [blockC4]
  ln := lnId
  unembed := ⟨fun m v => if m = 0 ∧ v = 0 then 1 else 0, fun _ => 0⟩

/-- Token input [[0, 0]]. -/
def toksA : Fin 1 → Fin 2 → Fin 2 :=
  fun _ _ => 0

/-- Token input [[0, 1]]: agrees with `toksA` at position 0 and differs only
at position 1. -/
def toksB : Fin 1 → Fin 2 → Fin 2 :=
  fun _ q => if q = 0 then 0 else 1

/-- Trivial one-head attention parameters over d_model = d_head = 1 with the
source's default mask constant, used to instantiate witnesses. -/
def attnP1 : AttnParams 1 1 1 :=
  ⟨fun _ _ _ => 0, fun _ _ => 0, fun _ _ _ => 0, fun _ _ => 0,
   fun _ _ _ => 0, fun _ _ => 0, fun _ _ _ => 0, fun _ => 0, -1e5⟩

/-- The residual stream entering the block for token input `toksB`
([[0, 1]]): position 0 embeds to (0, 0), position 1 to (2, 0). -/
def residBv : Fin 1 → Fin 2 → Fin 2 → ℝ :=
  fun _ q m => if q = 0 then 0 else if m = 0 then 2 else 0

/-- `LayerNorm.forwardT lnId residBv` in closed form: position 0 normalizes to
the zero vector, position 1 to `(1, -1) / sqrt(2 + 1e-5)`. -/
def lnOutBv : Fin 1 → Fin 2 → Fin 2 → ℝ :=
  fun _ q m => if q = 0 then 0 else (if m = 0 then 1 else -1) / Real.sqrt (2 + 1e-5)

/-- A zero residual-stream tensor of shape [1, 1, 1], used to instantiate
witnesses. -/
def zeroResid111 : Fin 1 → Fin 1 → Fin 1 → ℝ :=
  fun _ _ _ => 0

/-- A zero residual-stream tensor of shape [1, 2, 1], used to instantiate
witnesses. -/
def zeroResid121 : Fin 1 → Fin 2 → Fin 1 → ℝ :=
  fun _ _ _ => 0

/-- A trivial layer norm over d_model = 1. -/
def trivialLN : LNParams 1 :=
  ⟨fun _ => 1, fun _ => 0, 1e-5⟩

/-- A trivial zero-block transformer over all dimensions 1, used to
instantiate witnesses. -/
def paramsW1 : TransformerParams 1 1 1 1 1 1 :=
  ⟨fun _ _ => 0, fun _ _ => 0, [], trivialLN, ⟨fun _ _ => 0, fun _ => 0⟩⟩

end

/-! ## Helper lemmas -/

/-- Hyperbolic tangent in closed form over the exponential. -/
lemma tanh_closed_form (x : ℝ) : Real.tanh x = 1 - 2 / (Real.exp (2 * x) + 1) := by
  have ht : (0:ℝ) < Real.exp x := Real.exp_pos x
  have h3 : Real.exp (2 * x) = Real.exp x * Real.exp x := by
    rw [two_mul, Real.exp_add]
  rw [Real.tanh_eq_sinh_div_cosh, Real.sinh_eq, Real.cosh_eq, h3, Real.exp_neg]
  have h5 : Real.exp x + (Real.exp x)⁻¹ ≠ 0 := by positivity
  have h6 : Real.exp x * Real.exp x + 1 ≠ 0 := by positivity
  field_simp
  ring

/-- Hyperbolic tangent is strictly monotone. -/
lemma tanh_lt_tanh {a b : ℝ} (h : a < b) : Real.tanh a < Real.tanh b := by
  rw [tanh_closed_form, tanh_closed_form]
  have ha : (0:ℝ) < Real.exp (2 * a) + 1 := by positivity
  have hab : Real.exp (2 * a) + 1 < Real.exp (2 * b) + 1 := by
    have := Real.exp_lt_exp.2 (by linarith : 2 * a < 2 * b)
    linarith
  have hdiv : 2 / (Real.exp (2 * b) + 1) < 2 / (Real.exp (2 * a) + 1) :=
    div_lt_div_of_pos_left (by norm_num) ha hab
  linarith

/-- Log-softmax in the usual logits-minus-logsumexp form. -/
lemma logSoftmax_eq_sub {n : ℕ} (x : Fin n → ℝ) (k : Fin n) :
    logSoftmax x k = x k - Real.log (∑ j, Real.exp (x j)) := by
  have hpos : (0:ℝ) < ∑ j, Real.exp (x j) :=
    Finset.sum_pos (fun j _ => Real.exp_pos _) ⟨k, Finset.mem_univ k⟩
  simp only [logSoftmax, softmax]
  rw [Real.log_div (Real.exp_ne_zero _) (ne_of_gt hpos), Real.log_exp]

/-- The foldl over the block list is the sequential application of the blocks. -/
lemma foldl_blocks_eq_applyBlocks {batch pos n_heads d_model d_head d_mlp : ℕ}
    (blocks : List (BlockParams n_heads d_model d_head d_mlp))
    (x : Fin batch → Fin pos → Fin d_model → ℝ) :
    blocks.foldl (fun r blk => TransformerBlock.forward blk r) x
      = applyBlocks blocks x := by
  induction blocks generalizing x with
  | nil => rfl
  | cons blk rest ih => simp only [List.foldl_cons, applyBlocks, ih]

/-! ## Claim C2 -/

/-- Claim C2: for every input x of shape [batch, position, d_model],
`TransformerBlock.forward x` equals `resid_mid + FeedForward(LayerNorm_2(resid_mid))`
with `resid_mid = x + SelfAttention(LayerNorm_1(x))`, and equivalently
`TransformerBlock(x) - x = SelfAttention(LN1(x)) + FeedForward(LN2(x + SelfAttention(LN1(x))))`
exactly; the output shape equals the input shape (carried by the type). -/
theorem transformer_block_residual_decomposition
    {batch pos n_heads d_model d_head d_mlp : ℕ}
    (p : BlockParams n_heads d_model d_head d_mlp)
    (x : Fin batch → Fin pos → Fin d_model → ℝ) :
    TransformerBlock.forward p x
      = (x + SelfAttention.forward p.attn (LayerNorm.forwardT p.ln1 x))
        + MLP.forwardT p.mlp (LayerNorm.forwardT p.ln2
            (x + SelfAttention.forward p.attn (LayerNorm.forwardT p.ln1 x)))
    ∧ TransformerBlock.forward p x - x
      = SelfAttention.forward p.attn (LayerNorm.forwardT p.ln1 x)
        + MLP.forwardT p.mlp (LayerNorm.forwardT p.ln2
            (x + SelfAttention.forward p.attn (LayerNorm.forwardT p.ln1 x))) := by
  refine ⟨rfl, ?_⟩
  show (x + SelfAttention.forward p.attn (LayerNorm.forwardT p.ln1 x))
        + MLP.forwardT p.mlp (LayerNorm.forwardT p.ln2
            (x + SelfAttention.forward p.attn (LayerNorm.forwardT p.ln1 x))) - x = _
  abel

/-! ## Claim C3 -/

/-- Claim C3: in `SelfAttention.forward` the raw per-head query-key dot
products are divided by sqrt(d_head), then every entry with key_pos >
query_pos is overwritten with the mask value -1e5 (the source default), then
the scores are softmax-normalized over the key axis, in exactly this order,
before the value-weighted sum. -/
theorem attention_scale_mask_softmax_order
    {batch pos n_heads d_model d_head : ℕ}
    (p : AttnParams n_heads d_model d_head) (hm : p.maskVal = -1e5)
    (x : Fin batch → Fin pos → Fin d_model → ℝ) :
    SelfAttention.forward p x = fun b q m =>
      (∑ h, ∑ dh,
        (∑ k, softmax (fun k2 => if q.val < k2.val then (-1e5 : ℝ)
            else (∑ dh2, SelfAttention.queries p x b q h dh2
                    * SelfAttention.keys p x b k2 h dh2)
              / Real.sqrt (d_head : ℝ)) k
          * SelfAttention.values p x b k h dh) * p.W_O h dh m) + p.b_O m := by
  funext b q m
  unfold SelfAttention.forward SelfAttention.context SelfAttention.pattern
    SelfAttention.maskedScores SelfAttention.scaledScores SelfAttention.rawScores
    SelfAttention.triuMask
  simp only [hm, decide_eq_true_eq, Nat.lt_iff_add_one_le]

/-- Witness for claim C3 at a concrete instantiation. -/
theorem attention_scale_mask_softmax_order_witness :
    attnP1.maskVal = -1e5 ∧
    SelfAttention.forward attnP1 zeroResid111
      = fun b q m =>
      (∑ h, ∑ dh,
        (∑ k, softmax (fun k2 => if q.val < k2.val then (-1e5 : ℝ)
            else (∑ dh2, SelfAttention.queries attnP1 zeroResid111 b q h dh2
                    * SelfAttention.keys attnP1 zeroResid111 b k2 h dh2)
              / Real.sqrt ((1 : ℕ) : ℝ)) k
          * SelfAttention.values attnP1 zeroResid111 b k h dh)
        * attnP1.W_O h dh m) + attnP1.b_O m :=
  ⟨rfl, attention_scale_mask_softmax_order attnP1 rfl zeroResid111⟩

/-! ## Claim C5 -/

/-- Claim C5 counterexample: at the input vector (0, 2) with unit gains, zero
bias and epsilon 1e-5, the source LayerNorm does not return
`gain * ((x - mean) / sqrt(biased variance + eps)) + bias`: the code divides
by the unbiased (d_model - 1) variance, giving -1/sqrt(2 + 1e-5) at index 0
where the biased formula gives -1/sqrt(1 + 1e-5). -/
theorem layerNorm_biased_variance_counterexample :
    LayerNorm.forward lnId ![0, 2] 0 ≠ LayerNormSpec.forward lnId ![0, 2] 0 := by
  have h1 : LayerNorm.forward lnId ![0, 2] 0 = -(1 / Real.sqrt (2 + 1e-5)) := by
    simp [LayerNorm.forward, LayerNorm.torchVar, lnId, Fin.sum_univ_two]
    norm_num
    rw [neg_div, one_div_div]
  have h2 : LayerNormSpec.forward lnId ![0, 2] 0 = -(1 / Real.sqrt (1 + 1e-5)) := by
    simp [LayerNormSpec.forward, lnId, Fin.sum_univ_two]
    norm_num
    rw [neg_div, one_div_div]
  rw [h1, h2]
  have hs1 : (0:ℝ) < Real.sqrt (1 + 1e-5) := Real.sqrt_pos.2 (by norm_num)
  have hs2 : Real.sqrt (1 + 1e-5) < Real.sqrt (2 + 1e-5) :=
    Real.sqrt_lt_sqrt (by norm_num) (by norm_num)
  have hlt : 1 / Real.sqrt (2 + 1e-5) < 1 / Real.sqrt (1 + 1e-5) :=
    one_div_lt_one_div_of_lt hs1 hs2
  intro hEq
  have := neg_lt_neg hlt
  linarith [hEq ▸ this]

/-- Claim C5 (amended): `LayerNorm.forward` computes, per position
independently over the last axis, the mean and the *unbiased* variance
(denominator d_model - 1, via torch's default Bessel correction), and returns
`gain * ((x - mean) / sqrt(variance + eps)) + bias` elementwise; the output
shape equals the input shape (carried by the type). -/
theorem layerNorm_unbiased_normalization {d : ℕ} (p : LNParams d) (x : Fin d → ℝ) :
    LayerNorm.forward p x = fun j =>
      p.gains j * ((x j - (∑ i, x i) / d) /
        Real.sqrt ((∑ i, (x i - (∑ i2, x i2) / d) ^ 2) / ((d : ℝ) - 1)
          + p.layer_norm_eps)) + p.bias j := by
  funext j
  have hc : (∑ i, (x i - (∑ i2, x i2) / d)) / (d : ℝ) = 0 := by
    rcases Nat.eq_zero_or_pos d with hd | hd
    · subst hd; simp
    · have hdne : ((d : ℕ) : ℝ) ≠ 0 := Nat.cast_ne_zero.2 hd.ne'
      rw [Finset.sum_sub_distrib, Finset.sum_const, card_univ, Fintype.card_fin]
      field_simp
  simp only [LayerNorm.forward, LayerNorm.torchVar]
  rw [hc]
  simp only [sub_zero]
  ring

/-! ## Claim C7 -/

/-- Claim C7: for position count at least 2, `cross_entropy_lm` computes the
log-softmax over the vocabulary axis, gathers at each position i < pos-1 the
log-probability that the logits at position i assign to token i+1 (aligning
logits[:, :-1, :] with tokens[:, 1:]), and returns the per-sequence mean of
these log-probabilities un-negated; the output shape is [batch] (carried by
the type). -/
theorem cross_entropy_lm_gathers_next_token {batch pos d_vocab : ℕ}
    (logits : Fin batch → Fin pos → Fin d_vocab → ℝ)
    (tokens : Fin batch → Fin pos → Fin d_vocab)
    (hpos : 2 ≤ pos) (b : Fin batch) :
    cross_entropy_lm logits tokens b =
      (∑ j : Fin (pos - 1),
        (logits b (Fin.castLE (Nat.sub_le pos 1) j) (tokens b ⟨j.val + 1, by omega⟩)
          - Real.log (∑ k, Real.exp
              (logits b (Fin.castLE (Nat.sub_le pos 1) j) k))))
        / ((pos : ℝ) - 1) := by
  simp only [cross_entropy_lm]
  rw [Nat.cast_sub (by omega : 1 ≤ pos), Nat.cast_one]
  congr 1
  apply Finset.sum_congr rfl
  intro j _
  exact logSoftmax_eq_sub _ _

/-- Witness for claim C7 at a concrete instantiation. -/
theorem cross_entropy_lm_gathers_next_token_witness :
    2 ≤ 2 ∧
    cross_entropy_lm (fun (_ : Fin 1) (_ : Fin 2) (_ : Fin 1) => (0:ℝ))
        (fun _ _ => 0) 0 =
      (∑ j : Fin (2 - 1),
        ((fun (_ : Fin 1) (_ : Fin 2) (_ : Fin 1) => (0:ℝ)) 0
            (Fin.castLE (Nat.sub_le 2 1) j)
            ((fun (_ : Fin 1) (_ : Fin 2) => (0 : Fin 1)) 0 ⟨j.val + 1, by omega⟩)
          - Real.log (∑ k, Real.exp
              ((fun (_ : Fin 1) (_ : Fin 2) (_ : Fin 1) => (0:ℝ)) 0
                (Fin.castLE (Nat.sub_le 2 1) j) k))))
        / (((2:ℕ) : ℝ) - 1) :=
  ⟨by decide,
   cross_entropy_lm_gathers_next_token (fun _ _ _ => 0) (fun _ _ => 0) (by decide) 0⟩

/-! ## Claim C10 -/

/-- Claim C10: for every configuration whose `num_blocks` attribute is an
integer, the block-list construction in `Transformer.__init__` fails before
building any block (iterating the int raises TypeError); moreover the
notebook's Config dataclass has no `num_blocks` field at all, so the lookup
itself fails (AttributeError) and `Transformer(Config())` fails for that
reason as well. -/
theorem transformer_init_always_fails :
    (∀ (fields : List (String × PyVal)) (n : ℤ),
      pyGetattr fields "num_blocks" = some (PyVal.int n) →
      Transformer.blockListCount fields = none)
    ∧ pyGetattr Config.fields "num_blocks" = none
    ∧ Transformer.blockListCount Config.fields = none := by
  refine ⟨?_, by rfl, by rfl⟩
  intro fields n h
  simp [Transformer.blockListCount, h, pyIterate]

/-- Witness for claim C10: a configuration carrying `num_blocks = 3` as an
int makes the block-list construction fail. -/
theorem transformer_init_always_fails_witness :
    Transformer.blockListCount [("num_blocks", PyVal.int 3)] = none :=
  transformer_init_always_fails.1 [("num_blocks", PyVal.int 3)] 3 rfl

/-! ## Claim C1 -/

/-- Claim C1: for every token-id tensor of shape [batch, position] with
batch ≥ 1, 1 ≤ position ≤ max_context_length and all ids in [0, d_vocab)
(carried by the types), `Transformer.forward` returns exactly
`Unembed(FinalLayerNorm(Block_n(...Block_1(Embed(tokens) + PosEncode(tokens))...)))`,
and the result has shape [batch, position, d_vocab] (carried by the return
type). -/
theorem transformer_forward_composition
    {n_heads d_model d_head d_mlp d_vocab max_ctx batch pos : ℕ}
    (p : TransformerParams n_heads d_model d_head d_mlp d_vocab max_ctx)
    (tokens : Fin batch → Fin pos → Fin d_vocab)
    (hbatch : 1 ≤ batch) (hpos1 : 1 ≤ pos) (hpos : pos ≤ max_ctx) :
    Transformer.forward p tokens hpos =
      UnembeddingLayer.forward p.unembed (LayerNorm.forwardT p.ln
        (applyBlocks p.blocks
          (EmbeddingLayer.forwardF p.W_E tokens
            + PositionEmbedding.forwardF p.W_P tokens hpos))) := by
  simp only [Transformer.forward]
  rw [foldl_blocks_eq_applyBlocks]

/-- Witness for claim C1 at a concrete instantiation. -/
theorem transformer_forward_composition_witness :
    ((1:ℕ) ≤ 1 ∧ (1:ℕ) ≤ 1 ∧ (1:ℕ) ≤ 1) ∧
    Transformer.forward paramsW1 (fun (_ : Fin 1) (_ : Fin 1) => (0 : Fin 1))
        (le_refl 1) =
      UnembeddingLayer.forward paramsW1.unembed (LayerNorm.forwardT paramsW1.ln
        (applyBlocks paramsW1.blocks
          (EmbeddingLayer.forwardF paramsW1.W_E (fun _ _ => 0)
            + PositionEmbedding.forwardF paramsW1.W_P (fun _ _ => (0 : Fin 1))
                (le_refl 1)))) :=
  ⟨⟨le_refl 1, le_refl 1, le_refl 1⟩,
   transformer_forward_composition paramsW1 (fun _ _ => 0)
     (le_refl 1) (le_refl 1) (le_refl 1)⟩

/-! ## Claim C6 -/

/-- Claim C6: the source's `gelu_new` uses the cubic coefficient 0.04715,
not the canonical published constant 0.044715, and the two formulas disagree
already at input 1 (strict monotonicity of tanh makes the two arguments give
different values). -/
theorem gelu_new_coefficient_deviates : gelu_new 1 ≠ gelu_new_canonical 1 := by
  unfold gelu_new gelu_new_canonical
  have hsq : (0:ℝ) < Real.sqrt (2.0 / Real.pi) :=
    Real.sqrt_pos.2 (by positivity)
  have harg : Real.sqrt (2.0 / Real.pi) * ((1:ℝ) + 0.044715 * 1 ^ 3)
      < Real.sqrt (2.0 / Real.pi) * ((1:ℝ) + 0.04715 * 1 ^ 3) :=
    mul_lt_mul_of_pos_left (by norm_num) hsq
  have htanh := tanh_lt_tanh harg
  intro hEq
  nlinarith [htanh, hEq]

/-! ## Claim C8 -/

/-- Claim C8 counterexample: with a 2-row positional table (max_ctx = 2) and a
1-by-3 token tensor (position = 3 > max_ctx), `PositionEmbedding.forward` does
not fail: it returns the whole table broadcast over the batch — the slice
`W_P[:3]` silently clipped the lookup to the 2 available rows. -/
theorem position_embedding_silently_truncates_counterexample :
    PositionEmbedding.forward [[1], [2]] [[5, 6, 7]] = [[[1], [2]]]
    ∧ ((PositionEmbedding.forward [[1], [2]] [[5, 6, 7]]).headD []).length = 2 :=
  ⟨rfl, rfl⟩

/-- Claim C8 (amended): for a token tensor whose position count exceeds
max_context_length, `PositionEmbedding.forward` does not fail: the slice
`W_P[:position]` silently truncates to the max_context_length available rows,
and the forward returns that whole table broadcast across the batch (any
failure can only arise downstream, from the shape mismatch with the token
embeddings). -/
theorem position_embedding_truncates (W_P : List (List ℝ))
    (input_tokens : List (List ℤ))
    (h : W_P.length < (input_tokens.headD []).length) :
    PositionEmbedding.forward W_P input_tokens
      = List.replicate input_tokens.length W_P
    ∧ ∀ mat ∈ PositionEmbedding.forward W_P input_tokens,
        mat.length = W_P.length := by
  have ht : W_P.take (input_tokens.headD []).length = W_P :=
    List.take_of_length_le (le_of_lt h)
  constructor
  · rw [PositionEmbedding.forward, ht]
  · intro mat hm
    rw [PositionEmbedding.forward, ht] at hm
    rw [List.eq_of_mem_replicate hm]

/-- Witness for claim C8 (amended) at a concrete instantiation. -/
theorem position_embedding_truncates_witness :
    ([[(1:ℝ)], [2]].length < ([[(5:ℤ), 6, 7]].headD []).length)
    ∧ (PositionEmbedding.forward [[1], [2]] [[5, 6, 7]]
        = List.replicate [[(5:ℤ), 6, 7]].length [[(1:ℝ)], [2]]
      ∧ ∀ mat ∈ PositionEmbedding.forward [[1], [2]] [[5, 6, 7]],
          mat.length = [[(1:ℝ)], [2]].length) :=
  ⟨by decide, position_embedding_truncates [[1], [2]] [[5, 6, 7]] (by decide)⟩

/-! ## Claim C9 -/

/-- Claim C9 counterexample: with a 2-row embedding table (d_vocab = 2), the
negative token id -1 does not make `EmbeddingLayer.forward` fail: torch
indexing wraps it around the table and returns row 1. -/
theorem embedding_negative_id_wraps_counterexample :
    EmbeddingLayer.forward [[1], [2]] [[-1]] = some [[[2]]] := by
  rfl

/-- torch indexing of one row in closed form: defined exactly on
[-rows.length, rows.length), wrapping negative indices. -/
lemma torchIndex_eq {α : Type} (rows : List α) (d0 : α) (i : ℤ) :
    torchIndex rows i =
      if -(rows.length : ℤ) ≤ i ∧ i < (rows.length : ℤ)
      then some (rows.getD (if i < 0 then (i + rows.length).toNat else i.toNat) d0)
      else none := by
  unfold torchIndex
  by_cases h0 : 0 ≤ i
  · rw [if_pos h0]
    by_cases hlt : i < (rows.length : ℤ)
    · have hn : i.toNat < rows.length := by omega
      rw [if_pos ⟨by omega, hlt⟩, if_neg (by omega : ¬ i < 0)]
      simp [List.getElem?_eq_getElem hn]
    · rw [if_neg (by omega : ¬ (-(rows.length : ℤ) ≤ i ∧ i < (rows.length : ℤ)))]
      exact List.getElem?_eq_none (by omega)
  · rw [if_neg h0]
    by_cases hge : -(rows.length : ℤ) ≤ i
    · have hn : (i + rows.length).toNat < rows.length := by omega
      rw [if_pos hge, if_pos ⟨hge, by omega⟩, if_pos (by omega : i < 0)]
      simp [List.getElem?_eq_getElem hn]
    · rw [if_neg hge, if_neg (by omega : ¬ (-(rows.length : ℤ) ≤ i ∧ i < (rows.length : ℤ)))]

/-- One row of token ids mapped through torch indexing, in closed form. -/
lemma mapM_torchIndex_eq (W_E : List (List ℝ)) (row : List ℤ) :
    row.mapM (torchIndex W_E) =
      if ∀ i ∈ row, -(W_E.length : ℤ) ≤ i ∧ i < (W_E.length : ℤ)
      then some (row.map (fun i =>
        W_E.getD (if i < 0 then (i + (W_E.length : ℤ)).toNat else i.toNat) []))
      else none := by
  induction row with
  | nil => rfl
  | cons a L ih =>
    rw [List.mapM_cons, torchIndex_eq W_E [] a, ih]
    by_cases ha : -(W_E.length : ℤ) ≤ a ∧ a < (W_E.length : ℤ)
    · by_cases hL : ∀ i ∈ L, -(W_E.length : ℤ) ≤ i ∧ i < (W_E.length : ℤ)
      · have hcons : ∀ i ∈ a :: L, -(W_E.length : ℤ) ≤ i ∧ i < (W_E.length : ℤ) :=
          List.forall_mem_cons.2 ⟨ha, hL⟩
        rw [if_pos ha, if_pos hL, if_pos hcons]
        simp
      · have hcons : ¬ ∀ i ∈ a :: L, -(W_E.length : ℤ) ≤ i ∧ i < (W_E.length : ℤ) :=
          fun hc => hL (List.forall_mem_cons.1 hc).2
        rw [if_pos ha, if_neg hL, if_neg hcons]
        simp
    · have hcons : ¬ ∀ i ∈ a :: L, -(W_E.length : ℤ) ≤ i ∧ i < (W_E.length : ℤ) :=
        fun hc => ha (List.forall_mem_cons.1 hc).1
      rw [if_neg ha, if_neg hcons]
      simp

/-- Claim C9 (amended): `EmbeddingLayer.forward` follows torch indexing
semantics — it fails (IndexError-equivalent) exactly when some token id lies
outside [-d_vocab, d_vocab); ids in [0, d_vocab) select their rows of the
embedding table, and negative ids in [-d_vocab, 0) wrap around to row
id + d_vocab rather than failing. The lookup is pure (a function of the table
and the tokens only). -/
theorem embedding_forward_torch_indexing (W_E : List (List ℝ))
    (input_tokens : List (List ℤ)) :
    EmbeddingLayer.forward W_E input_tokens =
      if ∀ row ∈ input_tokens, ∀ i ∈ row,
          -(W_E.length : ℤ) ≤ i ∧ i < (W_E.length : ℤ)
      then some (input_tokens.map (fun row => row.map (fun i =>
        W_E.getD (if i < 0 then (i + (W_E.length : ℤ)).toNat else i.toNat) [])))
      else none := by
  unfold EmbeddingLayer.forward
  induction input_tokens with
  | nil => rfl
  | cons r T ih =>
    rw [List.mapM_cons, mapM_torchIndex_eq, ih]
    by_cases hr : ∀ i ∈ r, -(W_E.length : ℤ) ≤ i ∧ i < (W_E.length : ℤ)
    · by_cases hT : ∀ row ∈ T, ∀ i ∈ row,
          -(W_E.length : ℤ) ≤ i ∧ i < (W_E.length : ℤ)
      · have hcons : ∀ row ∈ r :: T, ∀ i ∈ row,
            -(W_E.length : ℤ) ≤ i ∧ i < (W_E.length : ℤ) :=
          List.forall_mem_cons.2 ⟨hr, hT⟩
        rw [if_pos hr, if_pos hT, if_pos hcons]
        simp
      · have hcons : ¬ ∀ row ∈ r :: T, ∀ i ∈ row,
            -(W_E.length : ℤ) ≤ i ∧ i < (W_E.length : ℤ) :=
          fun hc => hT (List.forall_mem_cons.1 hc).2
        rw [if_pos hr, if_neg hT, if_neg hcons]
        simp
    · have hcons : ¬ ∀ row ∈ r :: T, ∀ i ∈ row,
          -(W_E.length : ℤ) ≤ i ∧ i < (W_E.length : ℤ) :=
        fun hc => hr (List.forall_mem_cons.1 hc).1
      rw [if_neg hr, if_neg hcons]
      simp

/-! ## Claim C4 -/

/-- Every softmax weight is strictly positive (the exponential is positive and
the normalizer is a nonempty sum of positives). -/
lemma softmax_pos {n : ℕ} (x : Fin n → ℝ) (i : Fin n) : 0 < softmax x i :=
  div_pos (Real.exp_pos _)
    (Finset.sum_pos (fun j _ => Real.exp_pos _) ⟨i, Finset.mem_univ i⟩)

/-- torch's variance is nonnegative whenever the axis is nonempty. -/
lemma torchVar_nonneg {d : ℕ} (y : Fin d → ℝ) (hd : 1 ≤ d) :
    0 ≤ LayerNorm.torchVar y := by
  unfold LayerNorm.torchVar
  apply div_nonneg (Finset.sum_nonneg fun i _ => sq_nonneg _)
  have h1 : (1 : ℝ) ≤ (d : ℝ) := by exact_mod_cast hd
  linarith

/-- The layer norm `lnId` sends the zero vector to the zero vector. -/
lemma layerNorm_lnId_zero : LayerNorm.forward lnId (fun _ => (0:ℝ)) = fun _ => 0 := by
  funext j
  simp [LayerNorm.forward, LayerNorm.torchVar, lnId]

/-- The all-zero MLP returns zero on every input. -/
lemma mlpZero_forward (x : Fin 2 → ℝ) : MLP.forward mlpZero x = fun _ => 0 := by
  funext j
  simp [MLP.forward, Linear.forward, mlpZero]

/-- The residual stream entering the block for token input `toksA` ([[0, 0]])
is the zero tensor. -/
lemma residA_eq :
    EmbeddingLayer.forwardF paramsC4.W_E toksA
      + PositionEmbedding.forwardF paramsC4.W_P toksA (le_refl 2)
      = fun _ _ _ => (0:ℝ) := by
  funext b q m
  simp [EmbeddingLayer.forwardF, PositionEmbedding.forwardF, paramsC4, toksA,
    Pi.add_apply]

/-- The attention module of the counterexample block returns zero on the zero
residual stream (its value vectors vanish). -/
lemma attnC4_zero :
    SelfAttention.forward attnC4 (fun (_ : Fin 1) (_ : Fin 2) (_ : Fin 2) => (0:ℝ))
      = fun _ _ _ => 0 := by
  funext b q m
  simp [SelfAttention.forward, SelfAttention.context, SelfAttention.values, attnC4]

/-- The counterexample block fixes the zero residual stream. -/
lemma blockC4_zero :
    TransformerBlock.forward blockC4 (fun (_ : Fin 1) (_ : Fin 2) (_ : Fin 2) => (0:ℝ))
      = fun _ _ _ => 0 := by
  have hln : LayerNorm.forwardT lnId (fun (_ : Fin 1) (_ : Fin 2) (_ : Fin 2) => (0:ℝ))
      = fun _ _ _ => 0 := by
    funext b q m
    simpa [LayerNorm.forwardT] using congrFun layerNorm_lnId_zero m
  simp only [TransformerBlock.forward, blockC4]
  rw [hln, attnC4_zero]
  have hz : ((fun (_ : Fin 1) (_ : Fin 2) (_ : Fin 2) => (0:ℝ)) + fun _ _ _ => 0)
      = fun (_ : Fin 1) (_ : Fin 2) (_ : Fin 2) => (0:ℝ) := by
    funext b q m
    simp
  rw [hz, hln]
  funext b q m
  simp [MLP.forwardT, mlpZero_forward]

/-- On the token input [[0, 0]] the whole counterexample transformer outputs
zero logits. -/
lemma forwardA_eq_zero :
    Transformer.forward paramsC4 toksA (le_refl 2) = fun _ _ _ => (0:ℝ) := by
  simp only [Transformer.forward]
  rw [residA_eq, show paramsC4.blocks = [blockC4] from rfl,
    List.foldl_cons, List.foldl_nil, blockC4_zero]
  funext b q v
  simp [UnembeddingLayer.forward, LayerNorm.forwardT, paramsC4,
    layerNorm_lnId_zero]

/-- The residual stream entering the block for token input `toksB` is
`residBv`. -/
lemma residB_eq :
    EmbeddingLayer.forwardF paramsC4.W_E toksB
      + PositionEmbedding.forwardF paramsC4.W_P toksB (le_refl 2)
      = residBv := by
  funext b q m
  fin_cases q <;>
    simp [EmbeddingLayer.forwardF, PositionEmbedding.forwardF, paramsC4, toksB,
      residBv, Pi.add_apply]

/-- The first layer norm of the counterexample block on `residBv` in closed
form. -/
lemma lnOutB_eq : LayerNorm.forwardT lnId residBv = lnOutBv := by
  funext b q m
  fin_cases q
  · have hz : residBv b 0 = fun _ => (0:ℝ) := by
      funext m2
      simp [residBv]
    show LayerNorm.forward lnId (residBv b 0) m = lnOutBv b 0 m
    rw [hz, layerNorm_lnId_zero]
    simp [lnOutBv]
  · show LayerNorm.forward lnId (residBv b 1) m = lnOutBv b 1 m
    have hv : residBv b 1 = fun m2 => if m2 = 0 then 2 else 0 := by
      funext m2
      simp [residBv]
    rw [hv]
    fin_cases m <;>
      simp [LayerNorm.forward, LayerNorm.torchVar, lnId, lnOutBv,
        Fin.sum_univ_two] <;>
      norm_num

/-- The value vector of key position 0 vanishes. -/
lemma attnB_values0 : SelfAttention.values attnC4 lnOutBv 0 0 0 0 = 0 := by
  simp [SelfAttention.values, attnC4, lnOutBv, Fin.sum_univ_two]

/-- The value vector of key position 1 is `1 / sqrt(2 + 1e-5)`. -/
lemma attnB_values1 :
    SelfAttention.values attnC4 lnOutBv 0 1 0 0 = 1 / Real.sqrt (2 + 1e-5) := by
  simp [SelfAttention.values, attnC4, lnOutBv, Fin.sum_univ_two]

/-- Coordinate 1 of the attention output at query position 0 vanishes (the
output projection writes only coordinate 0). -/
lemma attnB_at00_m1 : SelfAttention.forward attnC4 lnOutBv 0 0 1 = 0 := by
  simp [SelfAttention.forward, attnC4, Fin.sum_univ_one]

/-- Coordinate 0 of the attention output at query position 0 is strictly
positive: the softmax leaks a positive weight to the masked future position 1,
whose value vector is positive. -/
lemma attnB_at00_pos : 0 < SelfAttention.forward attnC4 lnOutBv 0 0 0 := by
  have hv1 : (0:ℝ) < SelfAttention.values attnC4 lnOutBv 0 1 0 0 := by
    rw [attnB_values1]
    positivity
  have hctx : 0 < SelfAttention.context attnC4 lnOutBv 0 0 0 0 := by
    simp only [SelfAttention.context]
    rw [Fin.sum_univ_two, attnB_values0, mul_zero, zero_add]
    exact mul_pos (softmax_pos _ _) hv1
  have hfw : SelfAttention.forward attnC4 lnOutBv 0 0 0
      = SelfAttention.context attnC4 lnOutBv 0 0 0 0 := by
    simp [SelfAttention.forward, attnC4, Fin.sum_univ_one]
  rw [hfw]
  exact hctx

/-- At query position 0 the counterexample block output equals the attention
output (the residual input vanishes there and the MLP is zero). -/
lemma blockB_at00 (m : Fin 2) :
    TransformerBlock.forward blockC4 residBv 0 0 m
      = SelfAttention.forward attnC4 lnOutBv 0 0 m := by
  simp only [TransformerBlock.forward, blockC4]
  rw [lnOutB_eq]
  simp [MLP.forwardT, mlpZero_forward, Pi.add_apply, residBv]

/-- `lnId` maps a vector `(c, 0)` with `c > 0` to a vector with positive
coordinate 0. -/
lemma layerNorm_lnId_pos_of (v : Fin 2 → ℝ) (h0 : 0 < v 0) (h1 : v 1 = 0) :
    0 < LayerNorm.forward lnId v 0 := by
  simp only [LayerNorm.forward, lnId, Fin.sum_univ_two, h1, add_zero, mul_one,
    Nat.cast_ofNat]
  have key : ∀ t : ℝ, 0 ≤ t → 0 < (v 0 - v 0 / 2) / Real.sqrt (t + 1e-5) := by
    intro t htt
    apply div_pos (by linarith)
    apply Real.sqrt_pos.2
    norm_num
    linarith
  exact key _ (torchVar_nonneg _ (by norm_num))

/-- On the token input [[0, 1]] the counterexample transformer's logit at
(batch 0, position 0, vocab 0) is strictly positive. -/
lemma forwardB_pos :
    0 < Transformer.forward paramsC4 toksB (le_refl 2) 0 0 0 := by
  have hfw : Transformer.forward paramsC4 toksB (le_refl 2) 0 0 0
      = LayerNorm.forward lnId (TransformerBlock.forward blockC4 residBv 0 0) 0 := by
    simp only [Transformer.forward]
    rw [residB_eq, show paramsC4.blocks = [blockC4] from rfl,
      List.foldl_cons, List.foldl_nil]
    simp [UnembeddingLayer.forward, LayerNorm.forwardT, paramsC4,
      Fin.sum_univ_two]
  rw [hfw]
  apply layerNorm_lnId_pos_of
  · rw [blockB_at00 0]
    exact attnB_at00_pos
  · rw [blockB_at00 1]
    exact attnB_at00_m1

/-- Claim C4 counterexample: the token inputs [[0, 0]] and [[0, 1]] agree at
position 0 and differ only at position 1 > 0, yet the logits of
`Transformer.forward` at position 0 differ between the two runs: the finite
mask constant -1e5 leaks a strictly positive softmax weight from query
position 0 to key position 1, so the perturbed token changes the position-0
logit from 0 to a strictly positive value. -/
theorem transformer_causality_counterexample :
    toksA 0 0 = toksB 0 0 ∧ toksA 0 1 ≠ toksB 0 1 ∧
    Transformer.forward paramsC4 toksA (le_refl 2) 0 0 0
      ≠ Transformer.forward paramsC4 toksB (le_refl 2) 0 0 0 := by
  refine ⟨rfl, by decide, ?_⟩
  have hA : Transformer.forward paramsC4 toksA (le_refl 2) 0 0 0 = 0 := by
    rw [forwardA_eq_zero]
  rw [hA]
  exact ne_of_lt forwardB_pos

/-- Claim C4 (amended): perturbing a token at position j > i can change the
logits at position i — exact causality fails (see the counterexample),
because the causal mask uses the finite constant mask_val rather than
negative infinity: after softmax, every future key position k > q still
carries the strictly positive attention weight exp(mask_val) / Z. -/
theorem attention_future_weight_positive {batch pos n_heads d_model d_head : ℕ}
    (p : AttnParams n_heads d_model d_head)
    (x : Fin batch → Fin pos → Fin d_model → ℝ)
    (b : Fin batch) (h : Fin n_heads) (q k : Fin pos) (hqk : q.val < k.val) :
    SelfAttention.pattern p x b h q k
      = Real.exp p.maskVal
        / ∑ k2, Real.exp (SelfAttention.maskedScores p x b h q k2)
    ∧ 0 < SelfAttention.pattern p x b h q k := by
  have htr : SelfAttention.triuMask q k = true := by
    simp [SelfAttention.triuMask]
    omega
  have hm : SelfAttention.maskedScores p x b h q k = p.maskVal := by
    simp [SelfAttention.maskedScores, htr]
  refine ⟨?_, softmax_pos _ _⟩
  show softmax (SelfAttention.maskedScores p x b h q) k = _
  simp only [softmax, hm]

/-- Witness for claim C4 (amended) at a concrete instantiation. -/
theorem attention_future_weight_positive_witness :
    (0 : Fin 2).val < (1 : Fin 2).val ∧
    (SelfAttention.pattern attnP1 zeroResid121 0 0 0 1
        = Real.exp attnP1.maskVal
          / ∑ k2, Real.exp (SelfAttention.maskedScores attnP1 zeroResid121 0 0 0 k2)
      ∧ 0 < SelfAttention.pattern attnP1 zeroResid121 0 0 0 1) :=
  ⟨by decide,
   attention_future_weight_positive attnP1 zeroResid121 0 0 0 1 (by decide)⟩
